import Mathlib

/-!
Shallow embedding of `src/bin/tools/fetchProxyOptions.ts`.

JavaScript strings are modelled as `List Char`.  The synchronous process
invocation (`child_process.execSync`) and the file read (`fs.readFileSync`)
are modelled as `Option`-valued functions supplied in an environment: `none`
models a thrown exception, `some raw` models captured output.  The
process-wide `configCache` is threaded explicitly, and every exec invocation
is recorded in a log (a list of keys) so that memoization and
short-circuiting can be stated.
-/

/-- JavaScript string, modelled as a list of characters. -/
abbrev JStr := List Char

/-- The process-wide config cache: an association list from key to cached
value (`none` models cached absence).  `Map.set` is modelled by prepending,
`Map.get`/`Map.has` by first-match lookup. -/
abbrev Cache := List (JStr × Option JStr)

/-- Environment of the resolver: the detected manager kind (`isYarn`, the
result of `detectYarn`), the outcome of `execSync` for each config key, and
the outcome of `fs.readFileSync` for each path. -/
structure Env where
  isYarn : Bool
  exec : JStr → Option JStr
  readFile : JStr → Option JStr

/-- The result type `FetchOptionsLike` of the source. -/
structure FetchOptionsLike where
  proxy : Option JStr
  noProxy : List JStr
  strictSSL : Bool
  cert : Option JStr
  ca : Option (List JStr)
  deriving DecidableEq, Repr

/-- Whitespace in the sense of JavaScript `String.prototype.trim`. -/
def isJsSpace (c : Char) : Bool :=
  c = ' ' || c = '\t' || c = '\n' || c = '\r' || c.val = 0x0b || c.val = 0x0c ||
  c.val = 0xa0 || c.val = 0x1680 || (0x2000 ≤ c.val && c.val ≤ 0x200a) ||
  c.val = 0x2028 || c.val = 0x2029 || c.val = 0x202f || c.val = 0x205f ||
  c.val = 0x3000 || c.val = 0xfeff

/-- Model of `.trim()`: drop leading and trailing whitespace. -/
def jsTrim (s : JStr) : JStr :=
  ((s.dropWhile isJsSpace).reverse.dropWhile isJsSpace).reverse

/-- Line terminators of JavaScript regular expressions (which `.` does not
match when the `s` flag is absent). -/
def isLineTerm (c : Char) : Bool :=
  c = '\n' || c = '\r' || c.val = 0x2028 || c.val = 0x2029

/-- Model of `value.replace(/^"(.*)"$/, "$1")`: remove one pair of enclosing
double quotes, provided the string starts and ends with `"`, has length at
least two, and the enclosed content contains no line terminator (JS `.`
does not match line terminators). -/
def stripYarnQuotes (s : JStr) : JStr :=
  match s with
  | '"' :: rest =>
    if rest.getLast? = some '"' && rest.dropLast.all (fun c => !isLineTerm c) then
      rest.dropLast
    else
      '"' :: rest
  | _ => s

/-- Model of the sentinel mapping: the literal texts `undefined` and `null`
become absence. -/
def sentinelToNone (v : JStr) : Option JStr :=
  if v = "undefined".data ∨ v = "null".data then none else some v

/-- Truthiness of a JS `string | undefined` value: `undefined` and the empty
string are falsy. -/
def jsTruthy : Option JStr → Bool
  | some v => !v.isEmpty
  | none => false

/-- Fuel-driven worker for `String.prototype.split` with a literal
separator: `acc` holds the current piece reversed.  With fuel at least the
length of the string this computes the JS split. -/
def splitAux (sep : JStr) : Nat → JStr → JStr → List JStr
  | 0, s, acc => [acc.reverse ++ s]
  | fuel + 1, s, acc =>
    match s with
    | [] => [acc.reverse]
    | c :: rest =>
      if sep.isPrefixOf (c :: rest) then
        acc.reverse :: splitAux sep fuel (List.drop sep.length (c :: rest)) []
      else
        splitAux sep fuel rest (c :: acc)

/-- Model of `s.split(sep)` for a non-empty literal separator. -/
def splitOnL (sep : JStr) (s : JStr) : List JStr :=
  splitAux sep s.length s []

/-- Fuel-driven worker for global literal replacement. -/
def replaceAux (pat repl : JStr) : Nat → JStr → JStr
  | 0, s => s
  | fuel + 1, s =>
    match s with
    | [] => []
    | c :: rest =>
      if pat.isPrefixOf (c :: rest) then
        repl ++ replaceAux pat repl fuel (List.drop pat.length (c :: rest))
      else
        c :: replaceAux pat repl fuel rest

/-- Model of `s.replace(new RegExp(pat, "g"), repl)` for a non-empty
literal pattern. -/
def replaceAllL (pat repl s : JStr) : JStr :=
  replaceAux pat repl s.length s

/-- The placeholder used by the CA-bundle newline escaping. -/
def newLinePlaceholder : JStr := "NEW_LINE_PLACEHOLDER_xIsPsK23svt".data

/-- The PEM boundary marker the CA bundle is split on. -/
def endCertMarker : JStr := "-----END CERTIFICATE-----".data

/-- Model of the `chunks` helper of the source:
`arr.map((_, i) => i % size == 0 && arr.slice(i, i + size)).filter(Boolean)`.
Indices at which the condition fails map to `false` (here `none`) and are
removed by `filter(Boolean)`; slices — arrays, hence truthy — are kept,
including a trailing slice shorter than `size`. -/
def chunks {α : Type} (arr : List α) (size : Nat) : List (List α) :=
  (List.range arr.length).filterMap
    (fun i => if i % size == 0 then some ((arr.drop i).take size) else none)

/-- Model of the per-chunk processing of the source:
`caChunk.join("").replace(/\r?\n/g, P).replace(new RegExp("^" + P), "").replace(new RegExp(P, "g"), "\n-escape")`.
The regex `/\r?\n/g` is modelled as replacing `\r\n` first and then the
remaining lone `\n`; the anchored `^P` replacement strips one leading
placeholder. -/
def escapeChunk (ck : List JStr) : JStr :=
  let joined := ck.foldr (fun a b => a ++ b) []
  let s1 := replaceAllL ('\r' :: '\n' :: []) newLinePlaceholder joined
  let s2 := replaceAllL ('\n' :: []) newLinePlaceholder s1
  let s3 :=
    if newLinePlaceholder.isPrefixOf s2 then s2.drop newLinePlaceholder.length
    else s2
  replaceAllL newLinePlaceholder ('\\' :: 'n' :: []) s3

/-- The list entries produced from a CA bundle file content:
`chunks(content.split(/(-----END CERTIFICATE-----)/), 2).map(...)`.  The JS
split with a capturing group keeps the marker as its own token between the
pieces, modelled by `List.intersperse`. -/
def caEntries (content : JStr) : List JStr :=
  (chunks (List.intersperse endCertMarker (splitOnL endCertMarker content)) 2).map
    escapeChunk

/-- `Map.has`/`Map.get` combined: `some v` when the key is present with
cached value `v` (`v` itself is an `Option`, `none` modelling cached
absence). -/
def cacheLookup (c : Cache) (k : JStr) : Option (Option JStr) :=
  (c.find? (fun e => decide (e.1 = k))).map (fun e => e.2)

/-- `Map.set`, modelled by prepending (lookup returns the first match). -/
def cacheInsert (c : Cache) (k : JStr) (v : Option JStr) : Cache :=
  (k, v) :: c

def httpsProxyKey : JStr := "https-proxy".data
def proxyKey : JStr := "proxy".data
def noproxyKey : JStr := "noproxy".data
def noProxyDashKey : JStr := "no-proxy".data
def strictSslKey : JStr := "strict-ssl".data
def certKey : JStr := "cert".data
def caKey : JStr := "ca".data
def cafileKey : JStr := "cafile".data
def trueLit : JStr := "true".data

/-- Model of `readConfig`.  Returns the value, the updated cache and the
log of exec invocations performed (`[key]` when the command was run — also
when it threw — and `[]` on a cache hit). -/
def readConfig (env : Env) (cache : Cache) (key : JStr) :
    Option JStr × Cache × List JStr :=
  match cacheLookup cache key with
  | some v => (v, cache, [])
  | none =>
    match env.exec key with
    | none => (none, cacheInsert cache key none, [key])
    | some raw =>
      let v1 := jsTrim raw
      let v2 := if env.isYarn then stripYarnQuotes v1 else v1
      let v := sentinelToNone v2
      (v, cacheInsert cache key v, [key])

/-- Model of `readConfig(k1) || readConfig(k2)`: the second read happens
only when the first value is falsy (absent or empty). -/
def resolveProxyPair (env : Env) (c : Cache) (k1 k2 : JStr) :
    Option JStr × Cache × List JStr :=
  let r1 := readConfig env c k1
  if jsTruthy r1.1 then (r1.1, r1.2.1, r1.2.2)
  else
    let r2 := readConfig env r1.2.1 k2
    (r2.1, r2.2.1, r1.2.2 ++ r2.2.2)

/-- Model of the `ca` assembly: read `ca`, wrap a truthy value as a
one-element list, read `cafile`, and when it is not absent try to read the
file and append the bundle entries; a failed file read is ignored. -/
def assembleCA (env : Env) (c : Cache) : List JStr × Cache × List JStr :=
  let r1 := readConfig env c caKey
  let caArray : List JStr :=
    match r1.1 with
    | some v => if v.isEmpty then [] else [v]
    | none => []
  let r2 := readConfig env r1.2.1 cafileKey
  let caL : List JStr :=
    match r2.1 with
    | none => caArray
    | some pathv =>
      match env.readFile pathv with
      | none => caArray
      | some content => caArray ++ caEntries content
  (caL, r2.2.1, r1.2.2 ++ r2.2.2)

/-- Model of `getProxyFetchOptions`, threading the cache in source order and
accumulating the exec invocation log. -/
def getProxyFetchOptions (env : Env) (c0 : Cache) :
    FetchOptionsLike × Cache × List JStr :=
  let pr := resolveProxyPair env c0 httpsProxyKey proxyKey
  let np := resolveProxyPair env pr.2.1 noproxyKey noProxyDashKey
  let noProxyV : List JStr :=
    match np.1 with
    | none => []
    | some v => splitOnL (',' :: []) v
  let ss := readConfig env np.2.1 strictSslKey
  let ct := readConfig env ss.2.1 certKey
  let caR := assembleCA env ct.2.1
  ({ proxy := pr.1, noProxy := noProxyV,
     strictSSL := decide (ss.1 = some trueLit),
     cert := ct.1,
     ca := if caR.1.isEmpty then none else some caR.1 },
   caR.2.1,
   pr.2.2 ++ (np.2.2 ++ (ss.2.2 ++ (ct.2.2 ++ caR.2.2))))

/-- The cache state right after the `cert` read, i.e. just before the `ca`
assembly, replayed from the initial cache. -/
def cacheAfterCert (env : Env) (c0 : Cache) : Cache :=
  (readConfig env
    (readConfig env
      (resolveProxyPair env
        (resolveProxyPair env c0 httpsProxyKey proxyKey).2.1
        noproxyKey noProxyDashKey).2.1
      strictSslKey).2.1
    certKey).2.1

/-- An arbitrary sequence of `readConfig` calls — possibly from different
resolver invocations with different environments — threading the shared
process-wide cache, with the concatenated exec invocation log. -/
def runReads : List (Env × JStr) → Cache → Cache × List JStr
  | [], c => (c, [])
  | (env, k) :: rest, c =>
    let r := readConfig env c k
    let t := runReads rest r.2.1
    (t.1, r.2.2 ++ t.2)

/-- Environment in which every config-query invocation fails. -/
def envAllFail : Env :=
  { isYarn := false, exec := fun _ => none, readFile := fun _ => none }

/-- Environment whose `https-proxy` value is the empty string and whose
`proxy` value is `http://x`; all other invocations fail. -/
def envEmptyFirst : Env :=
  { isYarn := false,
    exec := fun k =>
      if k = httpsProxyKey then some []
      else if k = proxyKey then some "http://x".data
      else none,
    readFile := fun _ => none }

/-- Environment whose `https-proxy` value is `http://a` and whose `noproxy`
value is `x`; all other invocations fail. -/
def envFirstWins : Env :=
  { isYarn := false,
    exec := fun k =>
      if k = httpsProxyKey then some "http://a".data
      else if k = noproxyKey then some "x".data
      else none,
    readFile := fun _ => none }

/-- Default-manager environment whose every config query prints
`  undefined  ` (surrounded by whitespace). -/
def envSentinel : Env :=
  { isYarn := false, exec := fun _ => some "  undefined  ".data,
    readFile := fun _ => none }

/-- Alternate-manager environment whose every config query prints
`  "foo"  ` (a quoted value surrounded by whitespace). -/
def envYarnQuoted : Env :=
  { isYarn := true, exec := fun _ => some "  \"foo\"  ".data,
    readFile := fun _ => none }

/-- Alternate-manager environment whose every config query prints a quoted
value with an internal line break. -/
def envYarnMultiline : Env :=
  { isYarn := true, exec := fun _ => some "\"a\nb\"".data,
    readFile := fun _ => none }

/-- Environment in which only `cafile` is configured (value `f`) and the
file `f` reads successfully as the empty file. -/
def envEmptyCafile : Env :=
  { isYarn := false,
    exec := fun k => if k = cafileKey then some "f".data else none,
    readFile := fun p => if p = "f".data then some [] else none }

/-- Environment in which `https-proxy`, `proxy`, `noproxy` and `ca` are all
configured as the empty string and every other invocation fails. -/
def envAllEmpty : Env :=
  { isYarn := false,
    exec := fun k =>
      if k = httpsProxyKey then some []
      else if k = proxyKey then some []
      else if k = noproxyKey then some []
      else if k = caKey then some []
      else none,
    readFile := fun _ => none }

/-- Default-manager environment whose every config query prints `"foo"`
(literal quotes in the value, not manager-added). -/
def envNpmQuoted : Env :=
  { isYarn := false, exec := fun _ => some "\"foo\"".data,
    readFile := fun _ => none }

/-- The https-proxy/proxy resolution stage of `getProxyFetchOptions`. -/
def prStage (env : Env) (c0 : Cache) : Option JStr × Cache × List JStr :=
  resolveProxyPair env c0 httpsProxyKey proxyKey

/-- The noproxy/no-proxy resolution stage. -/
def npStage (env : Env) (c0 : Cache) : Option JStr × Cache × List JStr :=
  resolveProxyPair env (prStage env c0).2.1 noproxyKey noProxyDashKey

/-- The strict-ssl read. -/
def ssStage (env : Env) (c0 : Cache) : Option JStr × Cache × List JStr :=
  readConfig env (npStage env c0).2.1 strictSslKey

/-- The cert read. -/
def ctStage (env : Env) (c0 : Cache) : Option JStr × Cache × List JStr :=
  readConfig env (ssStage env c0).2.1 certKey

/-- The ca/cafile assembly stage. -/
def caStage (env : Env) (c0 : Cache) : List JStr × Cache × List JStr :=
  assembleCA env (ctStage env c0).2.1


theorem splitAux_ne_nil (sep : JStr) (fuel : Nat) :
    ∀ (s acc : JStr), splitAux sep fuel s acc ≠ [] := by
  induction fuel with
  | zero => intro s acc; simp [splitAux]
  | succ n ih =>
    intro s acc
    cases s with
    | nil => simp [splitAux]
    | cons c rest =>
      simp only [splitAux]
      split
      · simp
      · exact ih rest (c :: acc)

theorem splitOnL_ne_nil (sep s : JStr) : splitOnL sep s ≠ [] :=
  splitAux_ne_nil sep s.length s []

theorem intersperse_length_eq {α : Type} (sep : α) (l : List α) (h : l ≠ []) :
    (List.intersperse sep l).length = 2 * l.length - 1 := by
  induction l with
  | nil => exact absurd rfl h
  | cons a t ih =>
    cases t with
    | nil => simp
    | cons b t' =>
      rw [List.intersperse_cons_cons]
      have := ih (by simp)
      simp only [List.length_cons] at this ⊢
      omega

theorem chunks_length_eq {α : Type} (arr : List α) :
    (chunks arr 2).length = (arr.length + 1) / 2 := by
  unfold chunks
  generalize arr.length = n
  induction n with
  | zero => simp
  | succ m ih =>
    rw [List.range_succ, List.filterMap_append, List.length_append, ih]
    by_cases h : m % 2 = 0
    · have : (m % 2 == 0) = true := by simp [h]
      simp only [List.filterMap, this]
      simp
      omega
    · have : (m % 2 == 0) = false := by simp [h]
      simp only [List.filterMap, this]
      simp
      omega

theorem caEntries_length_eq (s : JStr) :
    (caEntries s).length = (splitOnL endCertMarker s).length := by
  unfold caEntries
  rw [List.length_map, chunks_length_eq,
    intersperse_length_eq _ _ (splitOnL_ne_nil _ _)]
  have hk : 0 < (splitOnL endCertMarker s).length :=
    List.length_pos.mpr (splitOnL_ne_nil _ _)
  omega

theorem caEntries_ne_nil (s : JStr) : caEntries s ≠ [] := by
  intro h
  have h1 := caEntries_length_eq s
  rw [h] at h1
  have hk : 0 < (splitOnL endCertMarker s).length :=
    List.length_pos.mpr (splitOnL_ne_nil _ _)
  simp at h1
  omega

theorem cacheLookup_insert_self (c : Cache) (k : JStr) (v : Option JStr) :
    cacheLookup (cacheInsert c k v) k = some v := by
  simp [cacheLookup, cacheInsert, List.find?_cons]

theorem cacheLookup_insert_ne (c : Cache) (k k' : JStr) (v : Option JStr)
    (h : k' ≠ k) : cacheLookup (cacheInsert c k v) k' = cacheLookup c k' := by
  simp [cacheLookup, cacheInsert, List.find?_cons, Ne.symm h]

theorem readConfig_cached (env : Env) (c : Cache) (k : JStr) (v : Option JStr)
    (h : cacheLookup c k = some v) : readConfig env c k = (v, c, []) := by
  simp [readConfig, h]

theorem readConfig_lookup_self (env : Env) (c : Cache) (k : JStr) :
    cacheLookup (readConfig env c k).2.1 k = some (readConfig env c k).1 := by
  unfold readConfig
  cases h : cacheLookup c k with
  | some v => simpa using h
  | none =>
    cases hx : env.exec k with
    | none => simp [cacheLookup_insert_self]
    | some raw => simp [cacheLookup_insert_self]

theorem readConfig_lookup_ne (env : Env) (c : Cache) (k k' : JStr)
    (h : k' ≠ k) :
    cacheLookup (readConfig env c k).2.1 k' = cacheLookup c k' := by
  unfold readConfig
  cases hl : cacheLookup c k with
  | some v => rfl
  | none =>
    cases hx : env.exec k with
    | none => simp [cacheLookup_insert_ne _ _ _ _ h]
    | some raw => simp [cacheLookup_insert_ne _ _ _ _ h]

theorem readConfig_log_cases (env : Env) (c : Cache) (k : JStr) :
    (readConfig env c k).2.2 = [] ∨ (readConfig env c k).2.2 = [k] := by
  unfold readConfig
  cases hl : cacheLookup c k with
  | some v => simp
  | none =>
    cases hx : env.exec k with
    | none => simp
    | some raw => simp

theorem readConfig_value_congr (env : Env) (c1 c2 : Cache) (k : JStr)
    (h : cacheLookup c1 k = cacheLookup c2 k) :
    (readConfig env c1 k).1 = (readConfig env c2 k).1 := by
  unfold readConfig
  rw [h]
  cases hl : cacheLookup c2 k with
  | some v => rfl
  | none =>
    cases hx : env.exec k with
    | none => rfl
    | some raw => rfl

theorem resolveProxyPair_lookup_ne (env : Env) (c : Cache) (k1 k2 k' : JStr)
    (h1 : k' ≠ k1) (h2 : k' ≠ k2) :
    cacheLookup (resolveProxyPair env c k1 k2).2.1 k' = cacheLookup c k' := by
  simp only [resolveProxyPair]
  by_cases hT : jsTruthy (readConfig env c k1).1 = true
  · rw [if_pos hT]
    exact readConfig_lookup_ne env c k1 k' h1
  · rw [if_neg hT, readConfig_lookup_ne env _ k2 k' h2,
      readConfig_lookup_ne env c k1 k' h1]

/-- C1 counterexample: on the spec's own input
`"CERT1-----END CERTIFICATE-----\nCERT2-----END CERTIFICATE-----"` the
splitting produces three list entries, not the claimed two: the trailing
content after the last marker (here the empty string) also becomes an
entry, because the `filter(Boolean)` step keeps every slice — arrays are
truthy in JavaScript — including the final slice shorter than two. -/
theorem caEntries_bundle_input_length_three :
    (caEntries
      "CERT1-----END CERTIFICATE-----\nCERT2-----END CERTIFICATE-----".data).length
      = 3 := by
  decide

/-- C1 amended: splitting on the marker yields one entry per piece of the
split — each complete content+marker pair becomes an entry with internal
line breaks escaped, and the partial trailing content after the last
marker (the empty string for an empty file or a file ending at the marker)
also becomes a final entry.  On the spec's input this gives exactly three
entries: the two certificate entries, each ending in the marker with no
raw line break, plus a trailing empty entry. -/
theorem caEntries_bundle_complete_pairs_plus_trailing :
    caEntries
        "CERT1-----END CERTIFICATE-----\nCERT2-----END CERTIFICATE-----".data
      = ["CERT1-----END CERTIFICATE-----".data,
         "CERT2-----END CERTIFICATE-----".data, []]
    ∧ (endCertMarker.isSuffixOf "CERT1-----END CERTIFICATE-----".data = true
       ∧ endCertMarker.isSuffixOf "CERT2-----END CERTIFICATE-----".data = true
       ∧ '\n' ∉ "CERT1-----END CERTIFICATE-----".data
       ∧ '\n' ∉ "CERT2-----END CERTIFICATE-----".data)
    ∧ (∀ s : JStr, (caEntries s).length = (splitOnL endCertMarker s).length) :=
  ⟨by decide, by decide, caEntries_length_eq⟩

/-- C2: the resolver is a total function by construction, and when every
config-query invocation fails the result on the empty process cache is
exactly `{ proxy: undefined, noProxy: [], strictSSL: false,
cert: undefined, ca: undefined }`. -/
theorem getProxyFetchOptions_all_fail_defaults (env : Env)
    (h : ∀ k : JStr, env.exec k = none) :
    (getProxyFetchOptions env []).1
      = { proxy := none, noProxy := [], strictSSL := false,
          cert := none, ca := none } := by
  obtain ⟨b, ex, rf⟩ := env
  have hx : ex = fun _ => none := funext h
  subst hx
  rfl

/-- Witness for C2 at the concrete all-failing environment. -/
theorem getProxyFetchOptions_all_fail_defaults_witness :
    envAllFail.exec [] = none
    ∧ (getProxyFetchOptions envAllFail []).1
        = { proxy := none, noProxy := [], strictSSL := false,
            cert := none, ca := none } :=
  ⟨rfl, getProxyFetchOptions_all_fail_defaults envAllFail (fun _ => rfl)⟩

theorem runReads_no_invoke_of_cached (key : JStr) :
    ∀ (ops : List (Env × JStr)) (c : Cache), cacheLookup c key ≠ none →
      List.countP (fun k => decide (k = key)) (runReads ops c).2 = 0 := by
  intro ops
  induction ops with
  | nil => intro c _; simp [runReads]
  | cons op rest ih =>
    intro c hc
    obtain ⟨env, k⟩ := op
    simp only [runReads, List.countP_append]
    by_cases hk : k = key
    · subst hk
      obtain ⟨v, hv⟩ := Option.ne_none_iff_exists'.mp hc
      rw [readConfig_cached env c k v hv]
      simpa using ih c hc
    · have hlog := readConfig_log_cases env c k
      have hcount : List.countP (fun x => decide (x = key))
          (readConfig env c k).2.2 = 0 := by
        rcases hlog with h | h <;> simp [h, hk]
      rw [hcount]
      have hc' : cacheLookup (readConfig env c k).2.1 key ≠ none := by
        rw [readConfig_lookup_ne env c k key (Ne.symm hk)]
        exact hc
      simpa using ih _ hc'

/-- C3: memoization.  First, across an arbitrary sequence of `readConfig`
calls threading the shared process-wide cache — the environments may differ
from call to call, as they do when the resolver is invoked again with a
different working directory or manager kind — the underlying config-query
command is invoked at most once per key.  Second, reading a key again right
after any read returns the value the first read produced, leaves the cache
unchanged and performs no invocation. -/
theorem readConfig_memoizes (ops : List (Env × JStr)) (c0 : Cache)
    (key : JStr) (env env' : Env) (c : Cache) :
    List.countP (fun k => decide (k = key)) (runReads ops c0).2 ≤ 1
    ∧ readConfig env' (readConfig env c key).2.1 key
        = ((readConfig env c key).1, (readConfig env c key).2.1, []) := by
  constructor
  · induction ops generalizing c0 with
    | nil => simp [runReads]
    | cons op rest ih =>
      obtain ⟨e, k⟩ := op
      simp only [runReads, List.countP_append]
      by_cases hk : k = key
      · subst hk
        have h1 : List.countP (fun x => decide (x = k))
            (readConfig e c0 k).2.2 ≤ 1 := by
          rcases readConfig_log_cases e c0 k with h | h <;> simp [h]
        have h2 : List.countP (fun x => decide (x = k))
            (runReads rest (readConfig e c0 k).2.1).2 = 0 := by
          apply runReads_no_invoke_of_cached
          rw [readConfig_lookup_self e c0 k]
          simp
        omega
      · have h1 : List.countP (fun x => decide (x = key))
            (readConfig e c0 k).2.2 = 0 := by
          rcases readConfig_log_cases e c0 k with h | h <;> simp [h, hk]
        have h2 := ih (readConfig e c0 k).2.1
        omega
  · exact readConfig_cached env' _ key _ (readConfig_lookup_self env c key)

theorem gpfo_proxy (env : Env) (c0 : Cache) :
    (getProxyFetchOptions env c0).1.proxy = (prStage env c0).1 := rfl

theorem gpfo_noProxy (env : Env) (c0 : Cache) :
    (getProxyFetchOptions env c0).1.noProxy
      = (match (npStage env c0).1 with
          | none => []
          | some v => splitOnL (',' :: []) v) := rfl

theorem gpfo_strictSSL (env : Env) (c0 : Cache) :
    (getProxyFetchOptions env c0).1.strictSSL
      = decide ((ssStage env c0).1 = some trueLit) := rfl

theorem gpfo_cert (env : Env) (c0 : Cache) :
    (getProxyFetchOptions env c0).1.cert = (ctStage env c0).1 := rfl

theorem gpfo_ca (env : Env) (c0 : Cache) :
    (getProxyFetchOptions env c0).1.ca
      = (if (caStage env c0).1.isEmpty then none else some (caStage env c0).1) :=
  rfl

theorem gpfo_log (env : Env) (c0 : Cache) :
    (getProxyFetchOptions env c0).2.2
      = (prStage env c0).2.2 ++ ((npStage env c0).2.2 ++
          ((ssStage env c0).2.2 ++ ((ctStage env c0).2.2 ++
            (caStage env c0).2.2))) := rfl

theorem readConfig_log_mem {env : Env} {c : Cache} {k x : JStr}
    (h : x ∈ (readConfig env c k).2.2) : x = k := by
  rcases readConfig_log_cases env c k with he | he <;> rw [he] at h
  · cases h
  · simpa using h

theorem resolveProxyPair_log_mem {env : Env} {c : Cache} {k1 k2 x : JStr}
    (h : x ∈ (resolveProxyPair env c k1 k2).2.2) : x = k1 ∨ x = k2 := by
  simp only [resolveProxyPair] at h
  by_cases hT : jsTruthy (readConfig env c k1).1 = true
  · rw [if_pos hT] at h
    exact Or.inl (readConfig_log_mem h)
  · rw [if_neg hT] at h
    rcases List.mem_append.mp h with h' | h'
    · exact Or.inl (readConfig_log_mem h')
    · exact Or.inr (readConfig_log_mem h')

theorem assembleCA_log (env : Env) (c : Cache) :
    (assembleCA env c).2.2
      = (readConfig env c caKey).2.2
        ++ (readConfig env (readConfig env c caKey).2.1 cafileKey).2.2 := rfl

theorem assembleCA_log_mem {env : Env} {c : Cache} {x : JStr}
    (h : x ∈ (assembleCA env c).2.2) : x = caKey ∨ x = cafileKey := by
  rw [assembleCA_log] at h
  rcases List.mem_append.mp h with h' | h'
  · exact Or.inl (readConfig_log_mem h')
  · exact Or.inr (readConfig_log_mem h')

/-- C4 counterexample: in `envEmptyFirst` the first key `https-proxy`
yields a present value (the empty string), yet that value is not the
result — the second key `proxy` is queried and its value `http://x` wins.
JS `||` falls through on the empty string because it is falsy, not only on
absence. -/
theorem proxy_fallback_empty_first_counterexample :
    (readConfig envEmptyFirst [] httpsProxyKey).1 = some []
    ∧ (getProxyFetchOptions envEmptyFirst []).1.proxy = some "http://x".data
    ∧ proxyKey ∈ (getProxyFetchOptions envEmptyFirst []).2.2 := by
  refine ⟨by decide, by decide, by decide⟩

/-- C4 amended: the first key takes priority over the second whenever it
yields a present **non-empty** value; in that case its value is the result
and the second key is never queried (its command never appears in the
invocation log).  This holds for both fallback pairs:
`https-proxy`/`proxy` and `noproxy`/`no-proxy`. -/
theorem proxy_fallback_nonempty_first_wins (env : Env) (c0 : Cache) :
    (∀ v : JStr, (readConfig env c0 httpsProxyKey).1 = some v → v ≠ [] →
      (getProxyFetchOptions env c0).1.proxy = some v
      ∧ proxyKey ∉ (getProxyFetchOptions env c0).2.2)
    ∧ (∀ w : JStr,
        (readConfig env (prStage env c0).2.1 noproxyKey).1 = some w → w ≠ [] →
      (getProxyFetchOptions env c0).1.noProxy = splitOnL (',' :: []) w
      ∧ noProxyDashKey ∉ (getProxyFetchOptions env c0).2.2) := by
  constructor
  · intro v hv hne
    have hT : jsTruthy (readConfig env c0 httpsProxyKey).1 = true := by
      rw [hv]
      simpa [jsTruthy] using hne
    have hpr : prStage env c0
        = ((readConfig env c0 httpsProxyKey).1,
           (readConfig env c0 httpsProxyKey).2.1,
           (readConfig env c0 httpsProxyKey).2.2) := by
      simp [prStage, resolveProxyPair, hT]
    constructor
    · rw [gpfo_proxy, hpr, hv]
    · intro hmem
      rw [gpfo_log] at hmem
      rcases List.mem_append.mp hmem with h | h
      · rw [hpr] at h
        have := readConfig_log_mem h
        simp [httpsProxyKey, proxyKey] at this
      rcases List.mem_append.mp h with h | h
      · rcases resolveProxyPair_log_mem h with h' | h' <;>
          simp [noproxyKey, noProxyDashKey, proxyKey] at h'
      rcases List.mem_append.mp h with h | h
      · have := readConfig_log_mem h
        simp [strictSslKey, proxyKey] at this
      rcases List.mem_append.mp h with h | h
      · have := readConfig_log_mem h
        simp [certKey, proxyKey] at this
      · rcases assembleCA_log_mem h with h' | h' <;>
          simp [caKey, cafileKey, proxyKey] at h'
  · intro w hw hne
    have hT : jsTruthy (readConfig env (prStage env c0).2.1 noproxyKey).1
        = true := by
      rw [hw]
      simpa [jsTruthy] using hne
    have hnp : npStage env c0
        = ((readConfig env (prStage env c0).2.1 noproxyKey).1,
           (readConfig env (prStage env c0).2.1 noproxyKey).2.1,
           (readConfig env (prStage env c0).2.1 noproxyKey).2.2) := by
      simp [npStage, resolveProxyPair, hT]
    constructor
    · rw [gpfo_noProxy, hnp, hw]
    · intro hmem
      rw [gpfo_log] at hmem
      rcases List.mem_append.mp hmem with h | h
      · rcases resolveProxyPair_log_mem h with h' | h' <;>
          simp [httpsProxyKey, proxyKey, noProxyDashKey] at h'
      rcases List.mem_append.mp h with h | h
      · rw [hnp] at h
        have := readConfig_log_mem h
        simp [noproxyKey, noProxyDashKey] at this
      rcases List.mem_append.mp h with h | h
      · have := readConfig_log_mem h
        simp [strictSslKey, noProxyDashKey] at this
      rcases List.mem_append.mp h with h | h
      · have := readConfig_log_mem h
        simp [certKey, noProxyDashKey] at this
      · rcases assembleCA_log_mem h with h' | h' <;>
          simp [caKey, cafileKey, noProxyDashKey] at h'

/-- Witness for the amended C4 at a concrete environment in which
`https-proxy` is `http://a` and `noproxy` is `x`. -/
theorem proxy_fallback_nonempty_first_wins_witness :
    ((getProxyFetchOptions envFirstWins []).1.proxy = some "http://a".data
      ∧ proxyKey ∉ (getProxyFetchOptions envFirstWins []).2.2)
    ∧ ((getProxyFetchOptions envFirstWins []).1.noProxy
          = splitOnL (',' :: []) "x".data
      ∧ noProxyDashKey ∉ (getProxyFetchOptions envFirstWins []).2.2) :=
  ⟨(proxy_fallback_nonempty_first_wins envFirstWins []).1 "http://a".data
      (by decide) (by decide),
   (proxy_fallback_nonempty_first_wins envFirstWins []).2 "x".data
      (by decide) (by decide)⟩

/-- C5: for both manager kinds, a fresh read whose normalized output is the
literal text `undefined` or `null` returns absent; the sentinel text is
never handed back as a value. -/
theorem readConfig_sentinel_absent (env : Env) (c : Cache) (k raw : JStr)
    (hc : cacheLookup c k = none) (hx : env.exec k = some raw)
    (hs : (if env.isYarn then stripYarnQuotes (jsTrim raw) else jsTrim raw)
            = "undefined".data
        ∨ (if env.isYarn then stripYarnQuotes (jsTrim raw) else jsTrim raw)
            = "null".data) :
    (readConfig env c k).1 = none := by
  simp only [readConfig, hc, hx, sentinelToNone]
  rw [if_pos hs]

/-- Witness for C5: the default manager printing `  undefined  ` yields an
absent value. -/
theorem readConfig_sentinel_absent_witness :
    cacheLookup [] certKey = none
    ∧ envSentinel.exec certKey = some "  undefined  ".data
    ∧ (readConfig envSentinel [] certKey).1 = none :=
  ⟨rfl, rfl,
   readConfig_sentinel_absent envSentinel [] certKey "  undefined  ".data rfl
     rfl (by decide)⟩

/-- C6 counterexample: under the alternate manager a trimmed output that
does start and end with a double quote is **not** always stripped: with an
internal line break (`"a\nb"` quoted) the anchored regex `/^"(.*)"$/` fails
— `.` does not match line terminators — and the value keeps its quotes. -/
theorem yarn_quote_strip_multiline_counterexample :
    (jsTrim "\"a\nb\"".data).head? = some '"'
    ∧ (jsTrim "\"a\nb\"".data).getLast? = some '"'
    ∧ envYarnMultiline.isYarn = true
    ∧ (readConfig envYarnMultiline [] certKey).1 = some "\"a\nb\"".data := by
  refine ⟨by decide, by decide, by decide, by decide⟩

/-- C6 amended: `readConfig` trims surrounding whitespace for both manager
kinds and applies the sentinel mapping to the result; for the alternate
manager it additionally strips a single pair of enclosing double quotes
when both are present **and** the enclosed content contains no line
terminator.  Raw `"foo"` (quoted) normalizes to `foo` under the alternate
manager and is returned unchanged under the default manager. -/
theorem readConfig_normalizes (env : Env) (c : Cache) (k raw : JStr)
    (hc : cacheLookup c k = none) (hx : env.exec k = some raw) :
    (readConfig env c k).1
      = sentinelToNone
          (if env.isYarn then stripYarnQuotes (jsTrim raw) else jsTrim raw)
    ∧ (∀ mid : JStr, (∀ ch ∈ mid, isLineTerm ch = false) →
        stripYarnQuotes ('"' :: (mid ++ ['"'])) = mid)
    ∧ (readConfig envYarnQuoted [] certKey).1 = some "foo".data
    ∧ (readConfig envNpmQuoted [] certKey).1 = some "\"foo\"".data := by
  refine ⟨?_, ?_, by decide, by decide⟩
  · simp only [readConfig, hc, hx]
  · intro mid hmid
    simp only [stripYarnQuotes, List.getLast?_concat, List.dropLast_concat]
    rw [if_pos]
    simp only [Bool.and_eq_true, beq_iff_eq, List.all_eq_true]
    exact ⟨rfl, fun ch hch => by simp [hmid ch hch]⟩

/-- Witness for the amended C6 at the alternate-manager environment that
prints `  "foo"  `. -/
theorem readConfig_normalizes_witness :
    cacheLookup [] certKey = none
    ∧ envYarnQuoted.exec certKey = some "  \"foo\"  ".data
    ∧ (readConfig envYarnQuoted [] certKey).1
        = sentinelToNone
            (if envYarnQuoted.isYarn then
              stripYarnQuotes (jsTrim "  \"foo\"  ".data)
            else jsTrim "  \"foo\"  ".data) :=
  ⟨rfl, rfl,
   (readConfig_normalizes envYarnQuoted [] certKey "  \"foo\"  ".data rfl
     rfl).1⟩

/-- C7: the returned `strictSSL` flag is true exactly when the value read
for `strict-ssl` — from the incoming cache state, unaffected by the earlier
proxy reads — is the literal string `true`; every other outcome, absence
and invocation failure included, gives false. -/
theorem strictSSL_iff_true_literal (env : Env) (c0 : Cache) :
    (getProxyFetchOptions env c0).1.strictSSL = true
      ↔ (readConfig env c0 strictSslKey).1 = some trueLit := by
  rw [gpfo_strictSSL]
  have h1 : cacheLookup (npStage env c0).2.1 strictSslKey
      = cacheLookup (prStage env c0).2.1 strictSslKey := by
    unfold npStage
    exact resolveProxyPair_lookup_ne env _ noproxyKey noProxyDashKey
      strictSslKey (by decide) (by decide)
  have h2 : cacheLookup (prStage env c0).2.1 strictSslKey
      = cacheLookup c0 strictSslKey := by
    unfold prStage
    exact resolveProxyPair_lookup_ne env c0 httpsProxyKey proxyKey
      strictSslKey (by decide) (by decide)
  have hst : (ssStage env c0).1 = (readConfig env c0 strictSslKey).1 := by
    unfold ssStage
    exact readConfig_value_congr env _ c0 strictSslKey (h1.trans h2)
  rw [hst]
  exact decide_eq_true_iff

/-- C8: the returned `ca` field is absent exactly when the assembled CA
list (the wrapped `ca` config value plus any bundle entries) is empty, and
otherwise is that list as-is — never an empty sequence. -/
theorem ca_field_absent_iff_empty (env : Env) (c0 : Cache) :
    (getProxyFetchOptions env c0).1.ca
      = (if (caStage env c0).1 = [] then none else some ((caStage env c0).1)) := by
  cases h : (caStage env c0).1 with
  | nil => simp [gpfo_ca, h]
  | cons a l => simp [gpfo_ca, h]

/-- C9: whenever the `cafile` key is configured and the bundle file is read
successfully, at least one entry is appended to the CA list — the chunking
of any content, the empty file included, yields at least one entry (the
empty string for the empty file) — so the returned `ca` field is never
absent in that case. -/
theorem cafile_success_ca_not_none (env : Env) (c0 : Cache)
    (pathv content : JStr)
    (hcf : (readConfig env (readConfig env (ctStage env c0).2.1 caKey).2.1
      cafileKey).1 = some pathv)
    (hrf : env.readFile pathv = some content) :
    (getProxyFetchOptions env c0).1.ca ≠ none ∧ caEntries [] = [[]] := by
  constructor
  · have hne : (caStage env c0).1 ≠ [] := by
      cases hv : (readConfig env (ctStage env c0).2.1 caKey).1 with
      | none =>
        simp only [caStage, assembleCA, hv, hcf, hrf]
        simp [caEntries_ne_nil]
      | some v =>
        simp only [caStage, assembleCA, hv, hcf, hrf]
        intro hnil
        rcases List.append_eq_nil.mp hnil with ⟨-, h2⟩
        exact caEntries_ne_nil content h2
    rw [gpfo_ca, if_neg (fun h => hne (List.isEmpty_iff.mp h))]
    simp
  · decide

/-- Witness for C9: only `cafile` is configured and the file reads as the
empty file; the returned `ca` field is present (it is `some [""]`). -/
theorem cafile_success_ca_not_none_witness :
    (readConfig envEmptyCafile
        (readConfig envEmptyCafile (ctStage envEmptyCafile []).2.1 caKey).2.1
        cafileKey).1 = some "f".data
    ∧ envEmptyCafile.readFile "f".data = some []
    ∧ (getProxyFetchOptions envEmptyCafile []).1.ca ≠ none :=
  ⟨by decide, rfl,
   (cafile_success_ca_not_none envEmptyCafile [] "f".data [] (by decide)
     rfl).1⟩

/-- C10: a present-but-empty config value is falsy during assembly: an
empty-string `https-proxy` does not win and `proxy` is still consulted
(the result is whatever the second read returns); if both proxy reads give
the empty string the returned field is the empty string, not absent; an
empty-string `noproxy` likewise defers to `no-proxy`; and an empty-string
`ca` value is not wrapped into the CA list, so with no bundle file the
returned `ca` field is absent. -/
theorem empty_string_config_behavior (env : Env) (c0 : Cache) :
    ((readConfig env c0 httpsProxyKey).1 = some [] →
      (getProxyFetchOptions env c0).1.proxy
        = (readConfig env (readConfig env c0 httpsProxyKey).2.1 proxyKey).1)
    ∧ ((readConfig env c0 httpsProxyKey).1 = some [] →
        (readConfig env (readConfig env c0 httpsProxyKey).2.1 proxyKey).1
          = some [] →
      (getProxyFetchOptions env c0).1.proxy = some [])
    ∧ ((readConfig env (prStage env c0).2.1 noproxyKey).1 = some [] →
      (getProxyFetchOptions env c0).1.noProxy
        = (match (readConfig env
              (readConfig env (prStage env c0).2.1 noproxyKey).2.1
              noProxyDashKey).1 with
           | none => []
           | some v => splitOnL (',' :: []) v))
    ∧ ((readConfig env (ctStage env c0).2.1 caKey).1 = some [] →
        (readConfig env (readConfig env (ctStage env c0).2.1 caKey).2.1
          cafileKey).1 = none →
      (getProxyFetchOptions env c0).1.ca = none) := by
  refine ⟨?_, ?_, ?_, ?_⟩
  · intro h
    rw [gpfo_proxy]
    simp [prStage, resolveProxyPair, h, jsTruthy]
  · intro h1 h2
    rw [gpfo_proxy]
    simp [prStage, resolveProxyPair, h1, h2, jsTruthy]
  · intro h
    rw [gpfo_noProxy]
    simp [npStage, resolveProxyPair, h, jsTruthy]
  · intro h1 h2
    rw [gpfo_ca]
    have hz : (caStage env c0).1 = [] := by
      simp [caStage, assembleCA, h1, h2]
    simp [hz]

/-- Witness for C10 at the environment in which `https-proxy`, `proxy`,
`noproxy` and `ca` are all configured as the empty string: the result has
`proxy` equal to the empty string, an empty `noProxy` list and an absent
`ca` field. -/
theorem empty_string_config_behavior_witness :
    (readConfig envAllEmpty [] httpsProxyKey).1 = some []
    ∧ (getProxyFetchOptions envAllEmpty []).1.proxy = some []
    ∧ (getProxyFetchOptions envAllEmpty []).1.noProxy = []
    ∧ (getProxyFetchOptions envAllEmpty []).1.ca = none :=
  ⟨by decide,
   (empty_string_config_behavior envAllEmpty []).2.1 (by decide) (by decide),
   by
     rw [(empty_string_config_behavior envAllEmpty []).2.2.1 (by decide)]
     decide,
   (empty_string_config_behavior envAllEmpty []).2.2.2 (by decide)
     (by decide)⟩
